import Mathlib

/-!
Verification of the timesheet automation core (`timesheet_bot`): a shallow
embedding, in Lean 4, of the week-specification parser, the week-offset
arithmetic, the CSV row model and loader validation, the per-cell fill
policy, the result-aggregation model features, and the multi-week fill
orchestrator, together with theorems settling the specification claims.

Conventions of the embedding:
* Python `int` becomes `Int` (or `ℕ` for counts and week numbers that the
  code keeps non-negative), Python `float` hour values become `ℚ` (the
  claims under study are structural and do not depend on rounding),
  Python strings become `String`.
* Code that raises becomes `Except String`; the error strings are the exact
  Python f-string renderings.
* The browser page is abstracted at the boundary the source itself draws
  (the Playwright locator calls): an operations record over an opaque page
  state, with the orchestrator's own control flow embedded faithfully.
-/

namespace TMS

/-- Decidable equality of `Except` results, used to evaluate embedded
functions on concrete inputs. -/
instance instDecEqExcept {ε α : Type} [DecidableEq ε] [DecidableEq α] :
    DecidableEq (Except ε α)
  | .ok a, .ok b =>
    if h : a = b then .isTrue (by rw [h]) else .isFalse (by intro hc; cases hc; exact h rfl)
  | .error e, .error f =>
    if h : e = f then .isTrue (by rw [h]) else .isFalse (by intro hc; cases hc; exact h rfl)
  | .ok _, .error _ => .isFalse (by intro hc; cases hc)
  | .error _, .ok _ => .isFalse (by intro hc; cases hc)

/-! ## week_utils.py -/

/-- `calculate_week_offset` from week_utils.py: linear index
`year * 52 + week`, target minus baseline. -/
def calculate_week_offset (baseline_year baseline_week target_year target_week : Int) : Int :=
  (target_year * 52 + target_week) - (baseline_year * 52 + baseline_week)

/-- `validate_week_offset` from week_utils.py: raises `ValueError` when the
offset exceeds the forward bound or the backward bound. -/
def validate_week_offset (offset max_forward max_backward : Int) : Except String Unit :=
  if offset > max_forward then
    .error ("Week offset " ++ toString offset ++
      " exceeds maximum forward navigation limit (+" ++ toString max_forward ++ " weeks)")
  else if offset < -max_backward then
    .error ("Week offset " ++ toString offset ++
      " exceeds maximum backward navigation limit (-" ++ toString max_backward ++ " weeks)")
  else
    .ok ()

/-- Python `str.strip()` on both ends, over the character list of the
string (structural recursion, so that concrete runs reduce in the kernel). -/
def strTrim (s : String) : String :=
  ⟨((s.data.dropWhile Char.isWhitespace).reverse.dropWhile Char.isWhitespace).reverse⟩

/-- Python `str.split(sep)` for a one-character separator. -/
def strSplitOn (sep : Char) (s : String) : List String :=
  (s.data.splitOn sep).map String.mk

/-- Python `str.lower()` (ASCII), over the character list. -/
def strLower (s : String) : String :=
  ⟨s.data.map Char.toLower⟩

/-- Membership of a character in a string (Python `c in part`). -/
def strHasChar (s : String) (c : Char) : Bool :=
  s.data.contains c

/-- The combination of the regex `^\d+$` and Python `int()` on ASCII digit
strings: `some n` exactly when the string is non-empty and all digits. -/
def strToNat? (s : String) : Option ℕ :=
  if s.data ≠ [] ∧ s.data.all Char.isDigit then
    some (s.data.foldl (fun n c => 10 * n + (c.toNat - '0'.toNat)) 0)
  else none

/-- One atom of a week specification (`parse_week_range`'s loop body):
trim, reject empty parts, handle `N-M` ranges (the regex `^(\d+)-(\d+)$`
matches exactly one hyphen with digit strings on both sides), otherwise a
single `^\d+$` week number; bounds are checked against `[1, 53]`. The
Python `set` the loop fills is represented as the list of contributed
numbers; `parse_week_range` deduplicates and sorts at the end, which is
extensionally `sorted(list(set))`. -/
def parseAtomBody (part : String) : Except String (List ℕ) :=
  if strHasChar part '-' then
    match strSplitOn '-' part with
    | [startStr, endStr] =>
      match strToNat? startStr, strToNat? endStr with
      | some start, some stop =>
        if start > stop then
          .error ("Invalid range '" ++ part ++ "': start week (" ++ toString start ++
            ") is greater than end week (" ++ toString stop ++ ")")
        else if ¬ (1 ≤ start ∧ start ≤ 53) then
          .error ("Week number " ++ toString start ++ " out of range (must be 1-53)")
        else if ¬ (1 ≤ stop ∧ stop ≤ 53) then
          .error ("Week number " ++ toString stop ++ " out of range (must be 1-53)")
        else
          .ok (List.range' start (stop + 1 - start))
      | _, _ =>
        .error ("Invalid range format: '" ++ part ++
          "'. Expected format: 'N-M' where N and M are week numbers")
    | _ =>
      .error ("Invalid range format: '" ++ part ++
        "'. Expected format: 'N-M' where N and M are week numbers")
  else
    match strToNat? part with
    | some week =>
      if ¬ (1 ≤ week ∧ week ≤ 53) then
        .error ("Week number " ++ toString week ++ " out of range (must be 1-53)")
      else
        .ok [week]
    | none => .error ("Invalid week number: '" ++ part ++ "'")

/-- The trim and empty-part check at the head of the loop body; the
specification string appears only in the empty-part error message. -/
def parseAtom (week_spec part0 : String) : Except String (List ℕ) :=
  let part := strTrim part0
  if part = "" then
    .error ("Invalid week specification: empty part in '" ++ week_spec ++ "'")
  else
    parseAtomBody part

/-- The `for part in parts` loop of `parse_week_range`, accumulating the
`weeks` set and aborting at the first bad atom. -/
def collectWeeks (week_spec : String) : List String → List ℕ → Except String (List ℕ)
  | [], acc => .ok acc
  | p :: ps, acc =>
    match parseAtom week_spec p with
    | .error e => .error e
    | .ok s => collectWeeks week_spec ps (acc ++ s)

/-- `parse_week_range` from week_utils.py: comma-separated atoms into the
sorted list of the accumulated set (`sorted(list(set))`). -/
def parse_week_range (week_spec : String) : Except String (List ℕ) :=
  if strTrim week_spec = "" then
    .error "Week specification cannot be empty"
  else
    let spec := strTrim week_spec
    match collectWeeks spec (strSplitOn ',' spec) [] with
    | .error e => .error e
    | .ok weeks =>
      if weeks = [] then
        .error ("No valid week numbers found in '" ++ spec ++ "'")
      else
        .ok (weeks.dedup.insertionSort (· ≤ ·))

/-! ## Theorems: C4 and C5 -/

/-- C4: `calculate_week_offset` is exactly the difference of the linear
indices `year * 52 + week`; in particular the offset from a week to itself
is `0`, `offset(2025,48,2025,50) = 2` and `offset(2025,48,2025,46) = -2`. -/
theorem calculate_week_offset_linear :
    (∀ y w ty tw : Int,
      calculate_week_offset y w ty tw = (ty * 52 + tw) - (y * 52 + w)) ∧
    (∀ y w : Int, calculate_week_offset y w y w = 0) ∧
    calculate_week_offset 2025 48 2025 50 = 2 ∧
    calculate_week_offset 2025 48 2025 46 = -2 := by
  refine ⟨fun y w ty tw => rfl, fun y w => ?_, by decide, by decide⟩
  simp [calculate_week_offset]

/-- C5: `validate_week_offset` raises exactly when the offset is above
`max_forward` or below `-max_backward`; offsets equal to either boundary
are accepted. -/
theorem validate_week_offset_iff :
    (∀ o f b : Int,
      (∃ e, validate_week_offset o f b = .error e) ↔ (o > f ∨ o < -b)) ∧
    (∀ f b : Int, 0 ≤ f → 0 ≤ b → validate_week_offset f f b = .ok ()) ∧
    (∀ f b : Int, 0 ≤ f → 0 ≤ b → validate_week_offset (-b) f b = .ok ()) := by
  refine ⟨fun o f b => ?_, fun f b hf hb => ?_, fun f b hf hb => ?_⟩
  · constructor
    · intro ⟨e, he⟩
      by_contra hc
      push_neg at hc
      simp only [validate_week_offset, if_neg (not_lt.mpr hc.1), if_neg (not_lt.mpr hc.2)] at he
      exact Except.noConfusion he
    · intro h
      unfold validate_week_offset
      rcases h with h | h
      · exact ⟨_, by rw [if_pos h]⟩
      · by_cases hf : o > f
        · exact ⟨_, by rw [if_pos hf]⟩
        · exact ⟨_, by rw [if_neg hf, if_pos h]⟩
  · have h1 : ¬ (f > f) := lt_irrefl f
    have h2 : ¬ (f < -b) := by omega
    simp [validate_week_offset, h1, h2]
  · have h1 : ¬ ((-b) > f) := by omega
    have h2 : ¬ ((-b) < -b) := lt_irrefl _
    simp [validate_week_offset, h1, h2]

/-- A successful atom parse does not depend on the surrounding
specification string (which only feeds the empty-part error message). -/
theorem parseAtom_ok_irrel {spec spec' p : String} {s : List ℕ}
    (h : parseAtom spec p = .ok s) : parseAtom spec' p = .ok s := by
  unfold parseAtom at h ⊢
  by_cases h0 : strTrim p = ""
  · simp [h0] at h
  · simpa [h0] using h

/-- Membership in a successfully collected week set: exactly the numbers
contributed by the accumulator or resolved by some atom of the list. -/
theorem collectWeeks_ok_mem {spec : String} :
    ∀ (ps : List String) (acc W : List ℕ),
      collectWeeks spec ps acc = .ok W →
      ∀ x, x ∈ W ↔ x ∈ acc ∨ ∃ p ∈ ps, ∃ t, parseAtom spec p = .ok t ∧ x ∈ t
  | [], acc, W, h, x => by
    simp only [collectWeeks] at h
    cases h
    simp
  | p :: ps, acc, W, h, x => by
    simp only [collectWeeks] at h
    cases hp : parseAtom spec p with
    | error e => rw [hp] at h; cases h
    | ok s =>
      rw [hp] at h
      rw [collectWeeks_ok_mem ps (acc ++ s) W h x]
      simp only [List.mem_append, List.mem_cons]
      constructor
      · rintro ((hx | hx) | ⟨q, hq, t, ht, hxt⟩)
        · exact Or.inl hx
        · exact Or.inr ⟨p, Or.inl rfl, s, hp, hx⟩
        · exact Or.inr ⟨q, Or.inr hq, t, ht, hxt⟩
      · rintro (hx | ⟨q, (rfl | hq), t, ht, hxt⟩)
        · exact Or.inl (Or.inl hx)
        · rw [hp] at ht
          cases ht
          exact Or.inl (Or.inr hxt)
        · exact Or.inr ⟨q, hq, t, ht, hxt⟩

/-- Characterization of a successful `parse_week_range` run: the result is
sorted, duplicate-free, and holds exactly the weeks resolved by the atoms
of the specification. -/
theorem parse_week_range_ok_char {s : String} {l : List ℕ}
    (h : parse_week_range s = .ok l) :
    l.Sorted (· ≤ ·) ∧ l.Nodup ∧
      (∀ w, w ∈ l ↔
        ∃ p ∈ strSplitOn ',' (strTrim s), ∃ t, parseAtom (strTrim s) p = .ok t ∧ w ∈ t) := by
  unfold parse_week_range at h
  by_cases h0 : strTrim s = ""
  · simp [h0] at h
  · rw [if_neg h0] at h
    cases hc : collectWeeks (strTrim s) (strSplitOn ',' (strTrim s)) [] with
    | error e => simp only [hc] at h; cases h
    | ok weeks =>
      simp only [hc] at h
      by_cases hw : weeks = []
      · rw [if_pos hw] at h; cases h
      · rw [if_neg hw] at h
        cases h
        refine ⟨List.sorted_insertionSort _ _, ?_, fun w => ?_⟩
        · exact ((List.perm_insertionSort _ _).nodup_iff).mpr (List.nodup_dedup _)
        · rw [(List.perm_insertionSort _ _).mem_iff, List.mem_dedup,
            collectWeeks_ok_mem _ _ _ hc w]
          simp

/-- C6: `parse_week_range` returns the sorted, duplicate-free set of the
weeks resolved from the atoms, so the result depends only on which atoms
occur, not on their order or multiplicity: two specifications with the
same atoms parse to the same list, and
`parse("50,48,49") = parse("48,49,50") = [48,49,50]`,
`parse("48,48") = [48]`. -/
theorem parse_week_range_set_semantics :
    (∀ s l, parse_week_range s = .ok l →
      l.Sorted (· ≤ ·) ∧ l.Nodup ∧
      (∀ w, w ∈ l ↔
        ∃ p ∈ strSplitOn ',' (strTrim s), ∃ t, parseAtom (strTrim s) p = .ok t ∧ w ∈ t)) ∧
    (∀ s₁ s₂ l₁ l₂, parse_week_range s₁ = .ok l₁ → parse_week_range s₂ = .ok l₂ →
      (∀ p, p ∈ strSplitOn ',' (strTrim s₁) ↔ p ∈ strSplitOn ',' (strTrim s₂)) →
      l₁ = l₂) ∧
    parse_week_range "50,48,49" = .ok [48, 49, 50] ∧
    parse_week_range "48,49,50" = .ok [48, 49, 50] ∧
    parse_week_range "48,48" = .ok [48] := by
  refine ⟨fun s l h => parse_week_range_ok_char h,
    fun s₁ s₂ l₁ l₂ h₁ h₂ hatoms => ?_, by decide, by decide, by decide⟩
  obtain ⟨hs₁, hn₁, hm₁⟩ := parse_week_range_ok_char h₁
  obtain ⟨hs₂, hn₂, hm₂⟩ := parse_week_range_ok_char h₂
  have hmem : ∀ w, w ∈ l₁ ↔ w ∈ l₂ := by
    intro w
    rw [hm₁, hm₂]
    constructor
    · rintro ⟨p, hp, t, ht, hw⟩
      exact ⟨p, (hatoms p).mp hp, t, parseAtom_ok_irrel ht, hw⟩
    · rintro ⟨p, hp, t, ht, hw⟩
      exact ⟨p, (hatoms p).mpr hp, t, parseAtom_ok_irrel ht, hw⟩
  exact List.eq_of_perm_of_sorted ((List.perm_ext_iff_of_nodup hn₁ hn₂).mpr hmem) hs₁ hs₂

/-- C7: each of the six invalid specifications is rejected, and the five
classes of failure (empty input, empty atom between commas, malformed
atom, out-of-range number, inverted range) surface pairwise distinct
error messages. -/
theorem parse_week_range_rejections :
    parse_week_range "" = .error "Week specification cannot be empty" ∧
    parse_week_range "48-" =
      .error "Invalid range format: '48-'. Expected format: 'N-M' where N and M are week numbers" ∧
    parse_week_range "a,b,c" = .error "Invalid week number: 'a'" ∧
    parse_week_range "0" = .error "Week number 0 out of range (must be 1-53)" ∧
    parse_week_range "54" = .error "Week number 54 out of range (must be 1-53)" ∧
    parse_week_range "50-48" =
      .error "Invalid range '50-48': start week (50) is greater than end week (48)" ∧
    parse_week_range "48,,49" =
      .error "Invalid week specification: empty part in '48,,49'" ∧
    List.Nodup ["Week specification cannot be empty",
      "Invalid week specification: empty part in '48,,49'",
      "Invalid range format: '48-'. Expected format: 'N-M' where N and M are week numbers",
      "Invalid week number: 'a'",
      "Week number 54 out of range (must be 1-53)",
      "Invalid range '50-48': start week (50) is greater than end week (48)"] := by
  refine ⟨by decide, by decide, by decide, by decide, by decide, by decide, by decide, by decide⟩

/-- Witness for C5 at the default bounds `(10, 20)`: both boundary offsets
are accepted. -/
theorem validate_week_offset_iff_witness :
    validate_week_offset 10 10 20 = .ok () ∧ validate_week_offset (-20) 10 20 = .ok () :=
  ⟨validate_week_offset_iff.2.1 10 20 (by decide) (by decide),
   validate_week_offset_iff.2.2 10 20 (by decide) (by decide)⟩

/-- Witness for C6: the characterization applied to the concrete parse of
`"50,48,49"`. -/
theorem parse_week_range_set_semantics_witness :
    List.Sorted (· ≤ ·) ([48, 49, 50] : List ℕ) ∧ ([48, 49, 50] : List ℕ).Nodup :=
  ⟨(parse_week_range_set_semantics.1 "50,48,49" [48, 49, 50] (by decide)).1,
   (parse_week_range_set_semantics.1 "50,48,49" [48, 49, 50] (by decide)).2.1⟩

/-! ## models.py -/

/-- The seven weekday columns, in the order of `TMSSelectors.WEEKDAYS` and
`CSVSchema.get_weekday_headers()`. -/
inductive Weekday
  | monday | tuesday | wednesday | thursday | friday | saturday | sunday
  deriving DecidableEq, Repr

/-- The fixed iteration order `monday .. sunday`. -/
def Weekday.all : List Weekday :=
  [.monday, .tuesday, .wednesday, .thursday, .friday, .saturday, .sunday]

/-- The lowercase column name of a weekday. -/
def Weekday.name : Weekday → String
  | .monday => "monday"
  | .tuesday => "tuesday"
  | .wednesday => "wednesday"
  | .thursday => "thursday"
  | .friday => "friday"
  | .saturday => "saturday"
  | .sunday => "sunday"

/-- `TimesheetRow` from models.py (after `__post_init__` trimming): one CSV
row with optional hour values per weekday (`none` = no instruction). -/
structure TimesheetRow where
  project_number : String
  project_name : String
  project_task : String
  monday : Option ℚ
  tuesday : Option ℚ
  wednesday : Option ℚ
  thursday : Option ℚ
  friday : Option ℚ
  saturday : Option ℚ
  sunday : Option ℚ
  deriving DecidableEq, Repr

/-- `TimesheetRow.get_weekday_value`. -/
def TimesheetRow.get_weekday_value (r : TimesheetRow) : Weekday → Option ℚ
  | .monday => r.monday
  | .tuesday => r.tuesday
  | .wednesday => r.wednesday
  | .thursday => r.thursday
  | .friday => r.friday
  | .saturday => r.saturday
  | .sunday => r.sunday

/-- `TimesheetRow.get_all_weekdays`: the insertion-ordered dictionary as an
association list. -/
def TimesheetRow.get_all_weekdays (r : TimesheetRow) : List (Weekday × Option ℚ) :=
  [(.monday, r.monday), (.tuesday, r.tuesday), (.wednesday, r.wednesday),
   (.thursday, r.thursday), (.friday, r.friday), (.saturday, r.saturday),
   (.sunday, r.sunday)]

/-- `TimesheetRow.total_hours`: sum of the non-null weekday values. -/
def TimesheetRow.total_hours (r : TimesheetRow) : ℚ :=
  (r.get_all_weekdays.filterMap (·.2)).sum

/-- `CellFillResult` from models.py. -/
structure CellFillResult where
  project_number : String
  weekday : String
  value : Option ℚ
  success : Bool
  skipped : Bool
  error : Option String
  deriving DecidableEq, Repr

/-- `ProjectFillResult` from models.py. -/
structure ProjectFillResult where
  project_number : String
  cells_filled : ℕ
  cells_skipped : ℕ
  cells_failed : ℕ
  cell_results : List CellFillResult
  project_found : Bool
  error : Option String
  deriving DecidableEq, Repr

/-- The dataclass defaults of `ProjectFillResult(project_number=...)`. -/
def ProjectFillResult.init (pn : String) : ProjectFillResult :=
  { project_number := pn, cells_filled := 0, cells_skipped := 0, cells_failed := 0,
    cell_results := [], project_found := true, error := none }

/-- `FillSummary` from models.py; `daily_totals` is the insertion-ordered
dictionary as an association list (empty before
`calculate_daily_totals` runs, like the Python `{}` default). -/
structure FillSummary where
  total_projects : ℕ
  projects_found : ℕ
  projects_not_found : ℕ
  total_cells_filled : ℕ
  total_cells_skipped : ℕ
  total_cells_failed : ℕ
  project_results : List ProjectFillResult
  missing_projects : List String
  daily_totals : List (Weekday × ℚ)
  deriving DecidableEq, Repr

/-- The dataclass defaults of `FillSummary()`. -/
def FillSummary.fresh : FillSummary :=
  { total_projects := 0, projects_found := 0, projects_not_found := 0,
    total_cells_filled := 0, total_cells_skipped := 0, total_cells_failed := 0,
    project_results := [], missing_projects := [], daily_totals := [] }

/-- `FillSummary.add_project_result` from models.py. -/
def FillSummary.add_project_result (s : FillSummary) (result : ProjectFillResult) : FillSummary :=
  let s := { s with project_results := s.project_results ++ [result],
                    total_projects := s.total_projects + 1 }
  if result.project_found then
    { s with projects_found := s.projects_found + 1,
             total_cells_filled := s.total_cells_filled + result.cells_filled,
             total_cells_skipped := s.total_cells_skipped + result.cells_skipped,
             total_cells_failed := s.total_cells_failed + result.cells_failed }
  else
    { s with projects_not_found := s.projects_not_found + 1,
             missing_projects := s.missing_projects ++ [result.project_number] }

/-- `dict.__setitem__`-style pointwise update used by
`calculate_daily_totals` (`totals[weekday] += value`). -/
def updateTotals (t : List (Weekday × ℚ)) (d : Weekday) (v : ℚ) : List (Weekday × ℚ) :=
  t.map (fun kv => if kv.1 = d then (kv.1, kv.2 + v) else kv)

/-- The inner `for weekday, value in row.get_all_weekdays().items()` loop. -/
def addRowTotals (t : List (Weekday × ℚ)) (dvs : List (Weekday × Option ℚ)) :
    List (Weekday × ℚ) :=
  dvs.foldl (fun t dv =>
    match dv.2 with
    | some v => updateTotals t dv.1 v
    | none => t) t

/-- `FillSummary.calculate_daily_totals` from models.py: all seven totals
start at `0.0` and accumulate the non-null instructed values of the input
rows. -/
def FillSummary.calculate_daily_totals (s : FillSummary) (rows : List TimesheetRow) :
    FillSummary :=
  let totals0 := Weekday.all.map (fun d => (d, (0 : ℚ)))
  let totals := rows.foldl (fun t r => addRowTotals t r.get_all_weekdays) totals0
  { s with daily_totals := totals }

/-- Unfolding `add_project_result` over a list of results, relative to an
arbitrary starting summary. -/
theorem add_project_result_foldl :
    ∀ (results : List ProjectFillResult) (s0 : FillSummary),
      (results.foldl FillSummary.add_project_result s0).total_projects
          = s0.total_projects + results.length ∧
      (results.foldl FillSummary.add_project_result s0).projects_found
          = s0.projects_found + (results.filter (·.project_found)).length ∧
      (results.foldl FillSummary.add_project_result s0).projects_not_found
          = s0.projects_not_found + (results.filter (fun r => !r.project_found)).length ∧
      (results.foldl FillSummary.add_project_result s0).total_cells_filled
          = s0.total_cells_filled
            + ((results.filter (·.project_found)).map (·.cells_filled)).sum ∧
      (results.foldl FillSummary.add_project_result s0).total_cells_skipped
          = s0.total_cells_skipped
            + ((results.filter (·.project_found)).map (·.cells_skipped)).sum ∧
      (results.foldl FillSummary.add_project_result s0).total_cells_failed
          = s0.total_cells_failed
            + ((results.filter (·.project_found)).map (·.cells_failed)).sum ∧
      (results.foldl FillSummary.add_project_result s0).missing_projects
          = s0.missing_projects
            ++ (results.filter (fun r => !r.project_found)).map (·.project_number) ∧
      (results.foldl FillSummary.add_project_result s0).daily_totals = s0.daily_totals
  | [], s0 => by simp
  | r :: rs, s0 => by
    obtain ⟨i1, i2, i3, i4, i5, i6, i7, i8⟩ :=
      add_project_result_foldl rs (s0.add_project_result r)
    simp only [List.foldl_cons, i1, i2, i3, i4, i5, i6, i7, i8, List.filter_cons]
    by_cases hf : r.project_found
    · simp [FillSummary.add_project_result, hf]
      omega
    · simp [FillSummary.add_project_result, hf]
      omega

/-- C10: invariants of `FillSummary` aggregation: for any sequence of
project results folded into a fresh summary, the project counts split by
`project_found`, `missing_projects` holds exactly the project numbers of
the not-found results, and the three cell counters are the sums of the
per-project counters over the found results only. -/
theorem fill_summary_aggregation_invariant (results : List ProjectFillResult) :
    (results.foldl FillSummary.add_project_result FillSummary.fresh).total_projects
      = (results.foldl FillSummary.add_project_result FillSummary.fresh).projects_found
        + (results.foldl FillSummary.add_project_result FillSummary.fresh).projects_not_found ∧
    (results.foldl FillSummary.add_project_result FillSummary.fresh).missing_projects.length
      = (results.foldl FillSummary.add_project_result FillSummary.fresh).projects_not_found ∧
    (results.foldl FillSummary.add_project_result FillSummary.fresh).missing_projects
      = (results.filter (fun r => !r.project_found)).map (·.project_number) ∧
    (results.foldl FillSummary.add_project_result FillSummary.fresh).total_cells_filled
      = ((results.filter (·.project_found)).map (·.cells_filled)).sum ∧
    (results.foldl FillSummary.add_project_result FillSummary.fresh).total_cells_skipped
      = ((results.filter (·.project_found)).map (·.cells_skipped)).sum ∧
    (results.foldl FillSummary.add_project_result FillSummary.fresh).total_cells_failed
      = ((results.filter (·.project_found)).map (·.cells_failed)).sum := by
  obtain ⟨i1, i2, i3, i4, i5, i6, i7, i8⟩ := add_project_result_foldl results FillSummary.fresh
  have hsplit := List.length_eq_length_filter_add (l := results) (·.project_found)
  refine ⟨?_, ?_, ?_, ?_, ?_, ?_⟩
  · rw [i1, i2, i3]
    simp [FillSummary.fresh]
    omega
  · rw [i7, i3]
    simp [FillSummary.fresh]
  · rw [i7]
    simp [FillSummary.fresh]
  · rw [i4]
    simp [FillSummary.fresh]
  · rw [i5]
    simp [FillSummary.fresh]
  · rw [i6]
    simp [FillSummary.fresh]

/-- The value contributed to weekday `k` by one row\'s weekday dictionary. -/
def weekdayContrib (dvs : List (Weekday × Option ℚ)) (k : Weekday) : ℚ :=
  (dvs.map (fun dv => if dv.1 = k then dv.2.getD 0 else 0)).sum

/-- Effect of the inner loop of `calculate_daily_totals` on an arbitrary
totals dictionary: every entry grows by the row\'s contribution to its key. -/
theorem addRowTotals_eq :
    ∀ (dvs : List (Weekday × Option ℚ)) (t : List (Weekday × ℚ)),
      addRowTotals t dvs = t.map (fun kv => (kv.1, kv.2 + weekdayContrib dvs kv.1))
  | [], t => by
    simp [addRowTotals, weekdayContrib]
  | (d, ov) :: rest, t => by
    have step : (match ov with
        | some v => updateTotals t d v
        | none => t)
        = t.map (fun kv => (kv.1, kv.2 + if kv.1 = d then ov.getD 0 else 0)) := by
      cases ov with
      | none => simp
      | some v =>
        simp only [updateTotals, Option.getD_some]
        refine List.map_congr_left fun kv _ => ?_
        by_cases h : kv.1 = d <;> simp [h]
    have : addRowTotals t ((d, ov) :: rest)
        = addRowTotals (t.map (fun kv => (kv.1, kv.2 + if kv.1 = d then ov.getD 0 else 0))) rest := by
      simp only [addRowTotals, List.foldl_cons, ← step]
    rw [this, addRowTotals_eq rest, List.map_map]
    refine List.map_congr_left fun kv _ => ?_
    by_cases hk : kv.1 = d
    · subst hk
      simp [weekdayContrib, Function.comp, add_assoc]
    · have hd : ¬ (d = kv.1) := fun hc => hk hc.symm
      simp [weekdayContrib, Function.comp, hk, hd]

/-- Effect of the outer loop of `calculate_daily_totals`: folding all rows
adds, per entry, the sum of the row contributions for its key. -/
theorem foldRowTotals_eq :
    ∀ (rows : List TimesheetRow) (t : List (Weekday × ℚ)),
      rows.foldl (fun t r => addRowTotals t r.get_all_weekdays) t
        = t.map (fun kv =>
            (kv.1, kv.2 + (rows.map (fun r => weekdayContrib r.get_all_weekdays kv.1)).sum))
  | [], t => by simp
  | r :: rows, t => by
    rw [List.foldl_cons, addRowTotals_eq, foldRowTotals_eq rows, List.map_map]
    refine List.map_congr_left fun kv _ => ?_
    simp [Function.comp, add_assoc]

/-- One row\'s contribution to weekday `k` is its instructed value for `k`
(`0` when null). -/
theorem weekdayContrib_get (r : TimesheetRow) (k : Weekday) :
    weekdayContrib r.get_all_weekdays k = (r.get_weekday_value k).getD 0 := by
  cases k <;>
    simp [weekdayContrib, TimesheetRow.get_all_weekdays, TimesheetRow.get_weekday_value]

/-- `calculate_daily_totals` produces, for each weekday in order, the sum
of the non-null instructed values over the input rows. -/
theorem calculate_daily_totals_eq (s : FillSummary) (rows : List TimesheetRow) :
    (s.calculate_daily_totals rows).daily_totals
      = Weekday.all.map (fun d =>
          (d, (rows.map (fun r => (r.get_weekday_value d).getD 0)).sum)) := by
  simp only [FillSummary.calculate_daily_totals, foldRowTotals_eq, List.map_map]
  refine List.map_congr_left fun d _ => ?_
  simp [Function.comp, weekdayContrib_get]

/-! ## csv_schema.py and csv_loader.py -/

/-- `CSVSchema.normalize_header`: trim, lowercase, then map the legacy
aliases `project_text` and `task` to their canonical names. -/
def normalize_header (h : String) : String :=
  let n := strLower (strTrim h)
  if n = "project_text" then "project_name"
  else if n = "task" then "project_task"
  else n

/-- A CSV data row as produced by `csv.DictReader`: raw header names to
cell values (`none` models a Python `None` cell of a short row). -/
abbrev RowDict := List (String × Option String)

/-- `normalized_dict.get(key, '')` composed with the loader\'s
`value.strip() if value else ''` normalization (`_parse_row`); a duplicate
normalized key overwrites an earlier one, like the Python dict build. -/
def fieldValue (row : RowDict) (canon : String) : String :=
  match row.reverse.find? (fun kv => normalize_header kv.1 = canon) with
  | some (_, some v) => strTrim v
  | some (_, none) => ""
  | none => ""

/-- Value of an ASCII digit run. -/
def decDigitsVal (cs : List Char) : ℕ :=
  cs.foldl (fun n c => 10 * n + (c.toNat - '0'.toNat)) 0

/-- Apply an optional leading minus sign. -/
def condNeg (neg : Bool) (n : ℕ) : Int :=
  if neg then -(n : Int) else (n : Int)

/-- Modelled fragment of Python `float()` on stripped CSV cells: an
optional sign followed by `digits`, `digits.digits`, `digits.` or
`.digits`; anything else raises `could not convert string to float`,
which `_parse_hours_value` turns into its own message. The value is built
with `mkRat` over integer arithmetic. -/
def pyFloat (s : String) : Option ℚ :=
  let signed : Bool × List Char :=
    match s.data with
    | '-' :: t => (true, t)
    | '+' :: t => (false, t)
    | cs => (false, cs)
  match signed.2.splitOn '.' with
  | [intPart] =>
    if intPart ≠ [] ∧ intPart.all Char.isDigit then
      some (mkRat (condNeg signed.1 (decDigitsVal intPart)) 1)
    else none
  | [intPart, fracPart] =>
    if (intPart ≠ [] ∨ fracPart ≠ []) ∧ intPart.all Char.isDigit ∧ fracPart.all Char.isDigit then
      some (mkRat
        (condNeg signed.1 (decDigitsVal intPart * 10 ^ fracPart.length + decDigitsVal fracPart))
        (10 ^ fracPart.length))
    else none
  | _ => none

/-- `CSVLoader._parse_hours_value`: empty → null; unparsable → an error
naming the field; negative → the re-raised guard message, which names the
value but not the field. `line_num` is threaded like the source (it is not
used in either message). -/
def parse_hours_value (value field_name : String) (line_num : ℕ) : Except String (Option ℚ) :=
  if value = "" then .ok none
  else
    match pyFloat value with
    | none =>
      .error ("Invalid hours value for " ++ field_name ++ ": '" ++ value ++
        "' (must be a number or empty)")
    | some hours =>
      if hours < 0 then .error ("Hours value cannot be negative: " ++ value)
      else .ok (some hours)

/-- The weekday-parsing loop of `CSVLoader._parse_row`, in the order of
`CSVSchema.get_weekday_headers()`. -/
def parseWeekdays (row : RowDict) (line_num : ℕ) : Except String (Weekday → Option ℚ) := do
  let mon ← parse_hours_value (fieldValue row "monday") "monday" line_num
  let tue ← parse_hours_value (fieldValue row "tuesday") "tuesday" line_num
  let wed ← parse_hours_value (fieldValue row "wednesday") "wednesday" line_num
  let thu ← parse_hours_value (fieldValue row "thursday") "thursday" line_num
  let fri ← parse_hours_value (fieldValue row "friday") "friday" line_num
  let sat ← parse_hours_value (fieldValue row "saturday") "saturday" line_num
  let sun ← parse_hours_value (fieldValue row "sunday") "sunday" line_num
  pure fun d => match d with
    | .monday => mon
    | .tuesday => tue
    | .wednesday => wed
    | .thursday => thu
    | .friday => fri
    | .saturday => sat
    | .sunday => sun

/-- `CSVLoader._parse_row`: a row whose normalized `project_number` is
empty after trimming yields `none` (skipped); otherwise the weekday cells
are parsed and a `TimesheetRow` is built. -/
def parse_row (row : RowDict) (line_num : ℕ) : Except String (Option TimesheetRow) :=
  let project_number := fieldValue row "project_number"
  if project_number = "" then .ok none
  else
    (parseWeekdays row line_num).map fun vals =>
      some { project_number := project_number,
             project_name := fieldValue row "project_name",
             project_task := fieldValue row "project_task",
             monday := vals .monday, tuesday := vals .tuesday,
             wednesday := vals .wednesday, thursday := vals .thursday,
             friday := vals .friday, saturday := vals .saturday,
             sunday := vals .sunday }

/-- The `for line_num, row_dict in enumerate(reader, start=2)` loop of
`CSVLoader._parse_rows`: skip `None` rows, wrap a row error with its
1-based source line. -/
def parse_rows_from : List RowDict → ℕ → Except String (List TimesheetRow)
  | [], _ => .ok []
  | r :: rs, line =>
    match parse_row r line with
    | .error e => .error ("Error on line " ++ toString line ++ ": " ++ e)
    | .ok none => parse_rows_from rs (line + 1)
    | .ok (some row) =>
      match parse_rows_from rs (line + 1) with
      | .error e => .error e
      | .ok l => .ok (row :: l)

/-- `CSVLoader._parse_rows`: the header is line 1, data rows start at
line 2; an empty retained list is the `no valid data rows` error. -/
def parse_rows (rows : List RowDict) : Except String (List TimesheetRow) :=
  match parse_rows_from rows 2 with
  | .error e => .error e
  | .ok [] => .error "CSV file contains no valid data rows"
  | .ok l => .ok l

/-- Substring test used to state what an error message identifies. -/
def strContains (s pat : String) : Bool :=
  (List.range (s.data.length + 1)).any
    (fun i => ((s.data.drop i).take pat.data.length) == pat.data)

/-- A one-row CSV whose `monday` cell is the negative value `-5.0`. -/
def negRowExample : RowDict :=
  [("project_number", some "8-26214-10-42"), ("project_name", some "Proj"),
   ("project_task", some "01 - Unspecified"), ("monday", some "-5.0"),
   ("tuesday", some ""), ("wednesday", some ""), ("thursday", some ""),
   ("friday", some ""), ("saturday", some ""), ("sunday", some "")]

/-- A one-row CSV whose `monday` cell is the non-numeric value `invalid`. -/
def nonNumericRowExample : RowDict :=
  [("project_number", some "8-26214-10-42"), ("project_name", some "Proj"),
   ("project_task", some "01 - Unspecified"), ("monday", some "invalid"),
   ("tuesday", some ""), ("wednesday", some ""), ("thursday", some ""),
   ("friday", some ""), ("saturday", some ""), ("sunday", some "")]

/-- The line number threaded through `_parse_row` is used in no message,
so the parse of a row does not depend on it. -/
theorem parse_row_line_irrelevant (row : RowDict) (n m : ℕ) :
    parse_row row n = parse_row row m := rfl

/-- `_parse_row` yields the skip marker exactly for rows whose normalized
project number is empty. -/
theorem parse_row_ok_none_iff (row : RowDict) (n : ℕ) :
    parse_row row n = .ok none ↔ fieldValue row "project_number" = "" := by
  constructor
  · intro h
    by_contra hne
    cases hw : parseWeekdays row n with
    | error e => simp [parse_row, hne, hw, Except.map] at h
    | ok vals => simp [parse_row, hne, hw, Except.map] at h
  · intro h
    simp [parse_row, h]

/-- A successful `_parse_rows` run retains, in order, exactly the parses of
the rows with a non-empty project number. -/
theorem parse_rows_from_ok_forall :
    ∀ (rows : List RowDict) (line : ℕ) (l : List TimesheetRow),
      parse_rows_from rows line = .ok l →
      List.Forall₂ (fun row t => parse_row row 2 = .ok (some t))
        (rows.filter (fun row => fieldValue row "project_number" != "")) l
  | [], line, l, h => by
    simp only [parse_rows_from] at h
    cases h
    simp
  | r :: rs, line, l, h => by
    simp only [parse_rows_from] at h
    cases hr : parse_row r line with
    | error e => rw [hr] at h; cases h
    | ok o =>
      rw [hr] at h
      cases o with
      | none =>
        have hf : fieldValue r "project_number" = "" := (parse_row_ok_none_iff r line).mp hr
        have ih := parse_rows_from_ok_forall rs (line + 1) l h
        simpa [List.filter_cons, hf] using ih
      | some t =>
        have hf : ¬ (fieldValue r "project_number" = "") := by
          intro hc
          rw [(parse_row_ok_none_iff r line).mpr hc] at hr
          cases hr
        cases hl : parse_rows_from rs (line + 1) with
        | error e => rw [hl] at h; cases h
        | ok l2 =>
          rw [hl] at h
          cases h
          have ih := parse_rows_from_ok_forall rs (line + 1) l2 hl
          have hline : parse_row r 2 = .ok (some t) := by
            rw [parse_row_line_irrelevant r 2 line]
            exact hr
          have hcond : (fieldValue r "project_number" != "") = true := by
            simpa using hf
          rw [List.filter_cons, hcond]
          exact List.Forall₂.cons hline ih

/-- If every row is blank, the row loop retains nothing. -/
theorem parse_rows_from_all_blank :
    ∀ (rows : List RowDict) (line : ℕ),
      (∀ row ∈ rows, fieldValue row "project_number" = "") →
      parse_rows_from rows line = .ok []
  | [], _, _ => rfl
  | r :: rs, line, h => by
    have hr : parse_row r line = .ok none :=
      (parse_row_ok_none_iff r line).mpr (h r (List.mem_cons_self r rs))
    simp only [parse_rows_from, hr]
    exact parse_rows_from_all_blank rs (line + 1) fun row hrow => h row (List.mem_cons_of_mem r hrow)

/-- C8 counterexample: for a data row whose `monday` cell is `-5.0`, the
loading error carries the 1-based line number but not the weekday field
name, contradicting the claim that both are identified. -/
theorem csv_negative_error_counterexample :
    parse_rows [negRowExample] =
      .error "Error on line 2: Hours value cannot be negative: -5.0" ∧
    strContains "Error on line 2: Hours value cannot be negative: -5.0" "monday" = false ∧
    strContains "Error on line 2: Hours value cannot be negative: -5.0" "line 2" = true := by
  refine ⟨by decide, by decide, by decide⟩

/-- C8 (amended): a negative hour value fails the load with an error that
carries the 1-based source line (header is line 1, first data row
line 2) but not the field name, while a non-numeric value fails with an
error naming both the field and the line. -/
theorem csv_hours_error_context :
    (∀ (v fn : String) (n : ℕ) (q : ℚ), pyFloat v = some q → q < 0 →
      parse_hours_value v fn n = .error ("Hours value cannot be negative: " ++ v)) ∧
    (∀ (v fn : String) (n : ℕ), v ≠ "" → pyFloat v = none →
      parse_hours_value v fn n =
        .error ("Invalid hours value for " ++ fn ++ ": '" ++ v ++ "' (must be a number or empty)")) ∧
    (∀ (r : RowDict) (rs : List RowDict) (e : String), parse_row r 2 = .error e →
      parse_rows (r :: rs) = .error ("Error on line 2: " ++ e)) ∧
    parse_rows [nonNumericRowExample] =
      .error "Error on line 2: Invalid hours value for monday: 'invalid' (must be a number or empty)" ∧
    strContains
      "Error on line 2: Invalid hours value for monday: 'invalid' (must be a number or empty)"
      "monday" = true ∧
    strContains
      "Error on line 2: Invalid hours value for monday: 'invalid' (must be a number or empty)"
      "line 2" = true := by
  refine ⟨?_, ?_, ?_, by decide, by decide, by decide⟩
  · intro v fn n q hq hneg
    have hv : ¬ (v = "") := by
      intro h
      rw [h] at hq
      exact Option.noConfusion ((by decide : pyFloat "" = none) ▸ hq)
    simp [parse_hours_value, hv, hq, hneg]
  · intro v fn n hv hnone
    simp [parse_hours_value, hv, hnone]
  · intro r rs e he
    have hfrom : parse_rows_from (r :: rs) 2 = .error ("Error on line 2: " ++ e) := by
      simp only [parse_rows_from, he]
      rw [show ("Error on line " ++ toString (2 : ℕ) ++ ": ") = "Error on line 2: " by decide]
    simp only [parse_rows, hfrom]

/-- Witness for C8: the amended theorem applied at `-5.0` and `invalid`. -/
theorem csv_hours_error_context_witness :
    parse_hours_value "-5.0" "monday" 2 = .error "Hours value cannot be negative: -5.0" ∧
    parse_hours_value "invalid" "monday" 2 =
      .error "Invalid hours value for monday: 'invalid' (must be a number or empty)" ∧
    parse_rows [negRowExample] =
      .error ("Error on line 2: " ++ "Hours value cannot be negative: -5.0") :=
  ⟨csv_hours_error_context.1 "-5.0" "monday" 2 (mkRat (-50) 10) (by decide) (by decide),
   csv_hours_error_context.2.1 "invalid" "monday" 2 (by decide) (by decide),
   csv_hours_error_context.2.2.1 negRowExample [] "Hours value cannot be negative: -5.0" (by decide)⟩

/-- A valid one-row CSV and its parse, for the C9 witness. -/
def goodRowExample : RowDict :=
  [("project_number", some "P1"), ("monday", some "7.5")]

/-- The `TimesheetRow` that `goodRowExample` parses to. -/
def goodRowParsed : TimesheetRow :=
  { project_number := "P1", project_name := "", project_task := "",
    monday := some (mkRat 75 10), tuesday := none, wednesday := none, thursday := none,
    friday := none, saturday := none, sunday := none }

/-- C9: a data row whose trimmed project number is empty is skipped
silently, a successful load retains exactly the parses of the non-blank
rows in order, and when every row is blank the load fails with the
`no valid data rows` error. -/
theorem csv_blank_row_semantics :
    (∀ (row : RowDict) (n : ℕ), fieldValue row "project_number" = "" →
      parse_row row n = .ok none) ∧
    (∀ (rows : List RowDict) (l : List TimesheetRow), parse_rows rows = .ok l →
      List.Forall₂ (fun row t => parse_row row 2 = .ok (some t))
        (rows.filter (fun row => fieldValue row "project_number" != "")) l) ∧
    (∀ rows : List RowDict, (∀ row ∈ rows, fieldValue row "project_number" = "") →
      parse_rows rows = .error "CSV file contains no valid data rows") := by
  refine ⟨?_, ?_, ?_⟩
  · intro row n h
    exact (parse_row_ok_none_iff row n).mpr h
  · intro rows l h
    have hfrom : parse_rows_from rows 2 = .ok l := by
      cases hc : parse_rows_from rows 2 with
      | error e => simp [parse_rows, hc] at h
      | ok l2 =>
        cases l2 with
        | nil => simp [parse_rows, hc] at h
        | cons a as =>
          simp only [parse_rows, hc] at h
          cases h
          rfl
    exact parse_rows_from_ok_forall rows 2 l hfrom
  · intro rows h
    simp only [parse_rows, parse_rows_from_all_blank rows 2 h]

/-- Witness for C9: a blank row is skipped, an all-blank file fails with
the dedicated error, and a mixed file retains exactly its good row. -/
theorem csv_blank_row_semantics_witness :
    parse_row [("project_number", some "  ")] 2 = .ok none ∧
    parse_rows [[("project_number", some "  ")]] =
      .error "CSV file contains no valid data rows" ∧
    List.Forall₂ (fun row t => parse_row row 2 = .ok (some t))
      ([[("project_number", some "  ")], goodRowExample].filter
        (fun row => fieldValue row "project_number" != "")) [goodRowParsed] :=
  ⟨csv_blank_row_semantics.1 [("project_number", some "  ")] 2 (by decide),
   csv_blank_row_semantics.2.2 [[("project_number", some "  ")]] (by decide),
   csv_blank_row_semantics.2.1 [[("project_number", some "  ")], goodRowExample]
     [goodRowParsed] (by decide)⟩

/-! ## playwright_client.py: TMSClient._fill_cell -/

/-- The field-level Playwright operations `_fill_cell` performs on a
located input field, over an opaque locator state: `input_value` (read),
`clear`, `fill` (write), and the Python `str(value)` rendering. Reading
after `fill` goes through `input_value` of the updated state, so a write
that does not land (empty read-back) is representable. -/
structure FieldOps (φ : Type) where
  input_value : φ → String
  clear : φ → φ
  fill : String → φ → φ
  pyStr : ℚ → String

/-- `TMSClient._fill_cell`: locate the field (`none` = `count() == 0`),
read the current value; a non-blank current value with `no_overwrite`
records a skipped cell without touching the field; otherwise the field is
cleared (only when the current value was non-blank) and written, and an
empty read-back records a failed cell. The source\'s `try/except` makes
the function total: every outcome is a returned `CellFillResult`. The
second component is the field state after the call. -/
def fill_cell {φ : Type} (ops : FieldOps φ) (no_overwrite : Bool)
    (project_number weekday : String) (value : ℚ) (field? : Option φ) :
    CellFillResult × Option φ :=
  let base : CellFillResult :=
    { project_number := project_number, weekday := weekday, value := some value,
      success := false, skipped := false, error := none }
  match field? with
  | none =>
    ({ base with error := some ("Input field for " ++ weekday ++ " not found") }, none)
  | some f =>
    let writeVerify : φ → CellFillResult × Option φ := fun f1 =>
      let f2 := ops.fill (ops.pyStr value) f1
      if ops.input_value f2 ≠ "" then
        ({ base with success := true }, some f2)
      else
        ({ base with error := some "Fill verification failed" }, some f2)
    let current := ops.input_value f
    if current ≠ "" ∧ strTrim current ≠ "" then
      if no_overwrite then
        ({ base with skipped := true }, some f)
      else
        writeVerify (ops.clear f)
    else
      writeVerify f

/-- C3: for a located field whose current value is non-blank, a
`no_overwrite` run records a skipped (not successful) cell and leaves the
field untouched; otherwise the field is cleared, written with
`str(value)`, and re-read, and an empty read-back yields a returned failed
cell (`Fill verification failed`) rather than an exception. -/
theorem fill_cell_overwrite_policy {φ : Type} (ops : FieldOps φ) (pn wd : String)
    (v : ℚ) (f : φ) (hcur : strTrim (ops.input_value f) ≠ "") :
    (fill_cell ops true pn wd v (some f)
      = ({ project_number := pn, weekday := wd, value := some v,
           success := false, skipped := true, error := none }, some f)) ∧
    (fill_cell ops false pn wd v (some f)
      = (if ops.input_value (ops.fill (ops.pyStr v) (ops.clear f)) ≠ "" then
          ({ project_number := pn, weekday := wd, value := some v,
             success := true, skipped := false, error := none },
            some (ops.fill (ops.pyStr v) (ops.clear f)))
        else
          ({ project_number := pn, weekday := wd, value := some v,
             success := false, skipped := false, error := some "Fill verification failed" },
            some (ops.fill (ops.pyStr v) (ops.clear f))))) ∧
    (ops.input_value (ops.fill (ops.pyStr v) (ops.clear f)) = "" →
      fill_cell ops false pn wd v (some f)
        = ({ project_number := pn, weekday := wd, value := some v,
             success := false, skipped := false, error := some "Fill verification failed" },
            some (ops.fill (ops.pyStr v) (ops.clear f)))) := by
  have hne : ops.input_value f ≠ "" := by
    intro h
    apply hcur
    rw [h]
    rfl
  refine ⟨?_, ?_, ?_⟩
  · simp [fill_cell, hne, hcur]
  · simp only [fill_cell, hne, hcur, ne_eq, not_false_iff, and_self, if_true,
      Bool.false_eq_true, if_false]
  · intro hread
    simp only [fill_cell, hne, hcur, ne_eq, not_false_iff, and_self, if_true,
      Bool.false_eq_true, if_false, hread, not_true]

/-- Field operations for the C3 witness: the state is the field\'s textual
value, writes land verbatim. -/
def fieldOpsLanding : FieldOps String :=
  { input_value := fun s => s
    clear := fun _ => ""
    fill := fun v _ => v
    pyStr := fun _ => "7.5" }

/-- Field operations for the C3 witness where a write never lands. -/
def fieldOpsDropping : FieldOps String :=
  { input_value := fun s => s
    clear := fun _ => ""
    fill := fun _ _ => ""
    pyStr := fun _ => "7.5" }

/-- Witness for C3: with current value `"3"`, a no-overwrite run skips and
leaves the field at `"3"`; an overwrite run against a field that drops the
write returns the `Fill verification failed` cell. -/
theorem fill_cell_overwrite_policy_witness :
    (fill_cell fieldOpsLanding true "P1" "monday" 0 (some "3")
      = ({ project_number := "P1", weekday := "monday", value := some 0,
           success := false, skipped := true, error := none }, some "3")) ∧
    (fill_cell fieldOpsDropping false "P1" "monday" 0 (some "3")
      = ({ project_number := "P1", weekday := "monday", value := some 0,
           success := false, skipped := false, error := some "Fill verification failed" },
          some "")) :=
  ⟨(fill_cell_overwrite_policy fieldOpsLanding "P1" "monday" 0 "3" (by decide)).1,
   (fill_cell_overwrite_policy fieldOpsDropping "P1" "monday" 0 "3" (by decide)).2.2 (by decide)⟩

/-! ## playwright_client.py: run_fill_operation -/

/-- The `Config` fields that `run_fill_operation` reads. -/
structure Config where
  auto_submit : Bool
  no_overwrite : Bool
  year : Option Int
  weeks : Option (List Int)
  deriving DecidableEq, Repr

/-- The `TMSClient` operations the orchestrator calls, over an opaque page
state `σ`. `Except.error` models a raised exception; `wait_for_table` and
`click_save` return success flags like the source methods;
`fill_timesheet` (which never raises: row- and cell-level problems are
recorded inside its summary) is a step producing the week\'s summary.
`navigate_to_week` receives target and freshly detected baseline, like
`TMSClient.navigate_to_week`. -/
structure ClientOps (σ : Type) where
  navigate_to_tms : σ → Except String σ
  wait_for_manual_login : σ → σ
  wait_for_table : σ → Bool × σ
  detect_baseline_week : σ → Except String ((Int × Int) × σ)
  navigate_to_week : Int → Int → Int → Int → σ → Except String σ
  fill_timesheet : List TimesheetRow → σ → FillSummary × σ
  click_save : σ → Bool × σ

/-- Kinds of page interaction recorded by the embedding. -/
inductive EventKind
  | navigateTms | login | waitTable | detectBaseline
  | detect | navigate | fill | save
  deriving DecidableEq, Repr

/-- One recorded page interaction; `weekIndex` is the 1-based position of
the target week being processed (`0` for the steps before the loop). -/
structure Event where
  weekIndex : ℕ
  kind : EventKind
  deriving DecidableEq, Repr

/-- A raised run failure: either before the week loop, or while processing
the week at 1-based `weekIndex`; `message` is the exact Python exception
message (the week index and number are bookkeeping of the embedding). -/
inductive RunError
  | prelude (message : String)
  | atWeek (weekIndex : ℕ) (week : Int) (message : String)
  deriving DecidableEq, Repr

/-- The body of one iteration of the `for week_index, target_week in
enumerate(weeks_to_process, 1)` loop (the `try` block): navigate if
needed (re-detecting the current week first), fill, merge the week\'s
counts into the overall summary, and save when `auto_submit` is set.
Returns the raised message or the updated summary and state, plus the
page interactions performed, each tagged with `week_index`. This is the
navigation phase (re-detect and per-step arrow navigation). -/
def navPhase {σ : Type} (ops : ClientOps σ) (cfg : Config)
    (baseline_year baseline_week : Int) (week_index : ℕ) (target_week : Int) (st : σ) :
    Except String σ × List Event :=
  let target_year := cfg.year.getD baseline_year
  if target_week ≠ baseline_week ∨ target_year ≠ baseline_year ∨ week_index > 1 then
    match ops.detect_baseline_week st with
    | .error e => (.error e, [⟨week_index, .detect⟩])
    | .ok ((current_year, current_week), st1) =>
      match ops.navigate_to_week target_year target_week current_year current_week st1 with
      | .error e => (.error e, [⟨week_index, .detect⟩, ⟨week_index, .navigate⟩])
      | .ok st2 =>
        match ops.wait_for_table st2 with
        | (true, st3) =>
          (.ok st3,
            [⟨week_index, .detect⟩, ⟨week_index, .navigate⟩, ⟨week_index, .waitTable⟩])
        | (false, _) =>
          (.error ("Failed to find timesheet table for Week " ++ toString target_week),
            [⟨week_index, .detect⟩, ⟨week_index, .navigate⟩, ⟨week_index, .waitTable⟩])
  else (.ok st, [])

/-- The remainder of the loop body after the navigation phase: fill, merge
the week counts into the overall summary, save when requested. -/
def processWeek {σ : Type} (ops : ClientOps σ) (cfg : Config) (rows : List TimesheetRow)
    (baseline_year baseline_week : Int) (week_index : ℕ) (target_week : Int)
    (overall : FillSummary) (st : σ) :
    Except String (FillSummary × σ) × List Event :=
  match navPhase ops cfg baseline_year baseline_week week_index target_week st with
  | (.error e, evs) => (.error e, evs)
  | (.ok st1, evs) =>
    let filled := ops.fill_timesheet rows st1
    let week_summary := filled.1
    let overall1 : FillSummary := { overall with
      total_projects := overall.total_projects + week_summary.total_projects,
      projects_found := overall.projects_found + week_summary.projects_found,
      projects_not_found := overall.projects_not_found + week_summary.projects_not_found,
      total_cells_filled := overall.total_cells_filled + week_summary.total_cells_filled,
      total_cells_skipped := overall.total_cells_skipped + week_summary.total_cells_skipped,
      total_cells_failed := overall.total_cells_failed + week_summary.total_cells_failed,
      missing_projects := overall.missing_projects ++ week_summary.missing_projects,
      project_results := overall.project_results ++ week_summary.project_results }
    if cfg.auto_submit then
      match ops.click_save filled.2 with
      | (true, st3) =>
        (.ok (overall1, st3), evs ++ [⟨week_index, .fill⟩, ⟨week_index, .save⟩])
      | (false, _) =>
        (.error ("Auto-submit failed for Week " ++ toString target_week),
          evs ++ [⟨week_index, .fill⟩, ⟨week_index, .save⟩])
    else
      (.ok (overall1, filled.2), evs ++ [⟨week_index, .fill⟩])

/-- The week loop of `run_fill_operation`: any raised message aborts the
remaining weeks, wrapped as `Operation failed at Week {target_week}: {e}`
by the `except` clause. -/
def processWeeks {σ : Type} (ops : ClientOps σ) (cfg : Config) (rows : List TimesheetRow)
    (baseline_year baseline_week : Int) :
    List (ℕ × Int) → FillSummary → σ → Except RunError FillSummary × List Event
  | [], overall, _ => (.ok overall, [])
  | (idx, w) :: rest, overall, st =>
    match processWeek ops cfg rows baseline_year baseline_week idx w overall st with
    | (.error e, evs) =>
      (.error (.atWeek idx w ("Operation failed at Week " ++ toString w ++ ": " ++ e)), evs)
    | (.ok (overall1, st1), evs) =>
      let next := processWeeks ops cfg rows baseline_year baseline_week rest overall1 st1
      (next.1, evs ++ next.2)

/-- `run_fill_operation` from playwright_client.py: navigate, manual
login, table wait, baseline detection, then the per-week loop; the
summary (with its daily totals computed once from the input rows before
the loop) is returned only when every target week succeeded. -/
def run_fill_operation {σ : Type} (ops : ClientOps σ) (cfg : Config)
    (rows : List TimesheetRow) (st : σ) : Except RunError FillSummary × List Event :=
  match ops.navigate_to_tms st with
  | .error e => (.error (.prelude e), [⟨0, .navigateTms⟩])
  | .ok st1 =>
    let st2 := ops.wait_for_manual_login st1
    match ops.wait_for_table st2 with
    | (false, _) =>
      (.error (.prelude "Failed to find timesheet table after login"),
        [⟨0, .navigateTms⟩, ⟨0, .login⟩, ⟨0, .waitTable⟩])
    | (true, st3) =>
      match ops.detect_baseline_week st3 with
      | .error e =>
        (.error (.prelude e),
          [⟨0, .navigateTms⟩, ⟨0, .login⟩, ⟨0, .waitTable⟩, ⟨0, .detectBaseline⟩])
      | .ok ((baseline_year, baseline_week), st4) =>
        let weeks_to_process : List Int :=
          match cfg.weeks with
          | some ws => if ws.length > 0 then ws else [baseline_week]
          | none => [baseline_week]
        let overall := FillSummary.fresh.calculate_daily_totals rows
        let indexed := weeks_to_process.enum.map (fun p => (p.1 + 1, p.2))
        let run := processWeeks ops cfg rows baseline_year baseline_week indexed overall st4
        (run.1,
          [⟨0, .navigateTms⟩, ⟨0, .login⟩, ⟨0, .waitTable⟩, ⟨0, .detectBaseline⟩] ++ run.2)

/-- Every interaction `processWeek` records is tagged with its own
`week_index`. -/
theorem navPhase_events_idx {σ : Type} (ops : ClientOps σ) (cfg : Config)
    (baseline_year baseline_week : Int) (idx : ℕ) (w : Int) (st : σ) :
    ∀ ev ∈ (navPhase ops cfg baseline_year baseline_week idx w st).2,
      ev.weekIndex = idx := by
  intro ev hev
  unfold navPhase at hev
  dsimp only at hev
  repeat' split at hev
  all_goals simp_all
  all_goals (rcases hev with rfl | rfl | rfl <;> rfl)

/-- Every interaction `processWeek` records is tagged with its own
`week_index`. -/
theorem processWeek_events_idx {σ : Type} (ops : ClientOps σ) (cfg : Config)
    (rows : List TimesheetRow) (baseline_year baseline_week : Int) (idx : ℕ) (w : Int)
    (overall : FillSummary) (st : σ) :
    ∀ ev ∈ (processWeek ops cfg rows baseline_year baseline_week idx w overall st).2,
      ev.weekIndex = idx := by
  intro ev hev
  have hnav := navPhase_events_idx ops cfg baseline_year baseline_week idx w st
  unfold processWeek at hev
  cases hn : navPhase ops cfg baseline_year baseline_week idx w st with
  | mk res evs0 =>
    rw [hn] at hev hnav
    cases res with
    | error e =>
      exact hnav ev hev
    | ok st1 =>
      dsimp only at hev
      split at hev
      · split at hev <;>
          · simp only [List.mem_append, List.mem_cons, List.not_mem_nil, or_false] at hev
            rcases hev with hev | rfl | rfl
            · exact hnav ev hev
            · rfl
            · rfl
      · simp only [List.mem_append, List.mem_cons, List.not_mem_nil, or_false] at hev
        rcases hev with hev | rfl
        · exact hnav ev hev
        · rfl

/-- On success, `processWeek` leaves `daily_totals` unchanged. -/
theorem processWeek_ok_daily_totals {σ : Type} (ops : ClientOps σ) (cfg : Config)
    (rows : List TimesheetRow) (baseline_year baseline_week : Int) (idx : ℕ) (w : Int)
    (overall : FillSummary) (st : σ) (o1 : FillSummary) (st1 : σ) (evs : List Event) :
    processWeek ops cfg rows baseline_year baseline_week idx w overall st
      = (.ok (o1, st1), evs) →
    o1.daily_totals = overall.daily_totals := by
  intro h
  unfold processWeek at h
  cases hn : navPhase ops cfg baseline_year baseline_week idx w st with
  | mk res evs0 =>
    rw [hn] at h
    cases res with
    | error e => cases h
    | ok stn =>
      dsimp only at h
      split at h
      · split at h
        · obtain ⟨⟨rfl, rfl⟩, rfl⟩ : _ ∧ _ := by
            have := Prod.mk.injEq .. ▸ h
            exact ⟨Except.ok.inj (congrArg Prod.fst h) |> Prod.mk.inj, congrArg Prod.snd h⟩
          rfl
        · cases h
      · obtain ⟨⟨rfl, rfl⟩, rfl⟩ : _ ∧ _ := by
          exact ⟨Except.ok.inj (congrArg Prod.fst h) |> Prod.mk.inj, congrArg Prod.snd h⟩
        rfl

/-- On success, the week loop leaves `daily_totals` unchanged: it merges
only the count and list fields of the week summaries. -/
theorem processWeeks_ok_daily_totals {σ : Type} (ops : ClientOps σ) (cfg : Config)
    (rows : List TimesheetRow) (baseline_year baseline_week : Int) :
    ∀ (pairs : List (ℕ × Int)) (overall : FillSummary) (st : σ)
      (s : FillSummary) (evs : List Event),
      processWeeks ops cfg rows baseline_year baseline_week pairs overall st = (.ok s, evs) →
      s.daily_totals = overall.daily_totals
  | [], overall, st, s, evs, h => by
    simp only [processWeeks, Prod.mk.injEq] at h
    obtain ⟨h1, -⟩ := h
    cases h1
    rfl
  | (idx, w) :: rest, overall, st, s, evs, h => by
    simp only [processWeeks] at h
    cases hp : processWeek ops cfg rows baseline_year baseline_week idx w overall st with
    | mk res evs0 =>
      rw [hp] at h
      cases res with
      | error e => simp at h
      | ok p =>
        obtain ⟨o1, st1⟩ := p
        dsimp only at h
        cases hr : processWeeks ops cfg rows baseline_year baseline_week rest o1 st1 with
        | mk res2 evs2 =>
          rw [hr] at h
          dsimp only at h
          obtain ⟨h1, -⟩ := Prod.mk.inj h
          cases h1
          calc s.daily_totals = o1.daily_totals :=
                processWeeks_ok_daily_totals ops cfg rows baseline_year baseline_week
                  rest o1 st1 s evs2 hr
            _ = overall.daily_totals :=
                processWeek_ok_daily_totals ops cfg rows baseline_year baseline_week
                  idx w overall st o1 st1 evs0 hp

/-- Characterization of a failing week loop over canonically indexed
pairs: the failure names a week of the list, its message has the
`Operation failed at Week w:` shape, and no recorded interaction belongs
to a week after the failing one. -/
theorem processWeeks_error_char {σ : Type} (ops : ClientOps σ) (cfg : Config)
    (rows : List TimesheetRow) (baseline_year baseline_week : Int) :
    ∀ (pairs : List (ℕ × Int)) (base : ℕ) (overall : FillSummary) (st : σ)
      (k : ℕ) (w : Int) (m : String) (evs : List Event),
      (∀ i (hi : i < pairs.length), (pairs.get ⟨i, hi⟩).1 = base + i) →
      processWeeks ops cfg rows baseline_year baseline_week pairs overall st
        = (.error (.atWeek k w m), evs) →
      base ≤ k ∧ (k, w) ∈ pairs ∧
        (∃ cause, m = "Operation failed at Week " ++ toString w ++ ": " ++ cause) ∧
        (∀ ev ∈ evs, ev.weekIndex ≤ k)
  | [], base, overall, st, k, w, m, evs, _, h => by
    simp [processWeeks] at h
  | (idx, w0) :: rest, base, overall, st, k, w, m, evs, hidx, h => by
    have hbase : idx = base := by
      have := hidx 0 (by simp)
      simpa using this
    simp only [processWeeks] at h
    cases hp : processWeek ops cfg rows baseline_year baseline_week idx w0 overall st with
    | mk res evs0 =>
      rw [hp] at h
      cases res with
      | error e =>
        dsimp only at h
        obtain ⟨h1, h2⟩ := Prod.mk.inj h
        obtain ⟨rfl, rfl, rfl⟩ := RunError.atWeek.inj (Except.error.inj h1)
        subst h2
        refine ⟨hbase.ge, List.mem_cons_self _ _, ⟨e, rfl⟩, ?_⟩
        intro ev hev
        have := processWeek_events_idx ops cfg rows baseline_year baseline_week
          idx w0 overall st ev (by rw [hp]; exact hev)
        omega
      | ok p =>
        obtain ⟨o1, st1⟩ := p
        dsimp only at h
        cases hr : processWeeks ops cfg rows baseline_year baseline_week rest o1 st1 with
        | mk res2 evs2 =>
          rw [hr] at h
          dsimp only at h
          obtain ⟨h1, h2⟩ := Prod.mk.inj h
          subst h2
          have hidx2 : ∀ i (hi : i < rest.length), (rest.get ⟨i, hi⟩).1 = (base + 1) + i := by
            intro i hi
            have h3 := hidx (i + 1) (by simpa using Nat.succ_lt_succ hi)
            simp only [List.get_cons_succ] at h3
            omega
          obtain ⟨hle, hmem, hcause, hevs⟩ :=
            processWeeks_error_char ops cfg rows baseline_year baseline_week
              rest (base + 1) o1 st1 k w m evs2 hidx2 (by rw [hr, h1])
          refine ⟨by omega, List.mem_cons_of_mem _ hmem, hcause, ?_⟩
          intro ev hev
          rcases List.mem_append.mp hev with hev | hev
          · have := processWeek_events_idx ops cfg rows baseline_year baseline_week
              idx w0 overall st ev (by rw [hp]; exact hev)
            omega
          · exact hevs ev hev

/-- Test double for the C1 scenario: every operation succeeds except that
the second save click fails; the page state counts save attempts. -/
def failingSaveOps : ClientOps ℕ :=
  { navigate_to_tms := fun st => .ok st
    wait_for_manual_login := fun st => st
    wait_for_table := fun st => (true, st)
    detect_baseline_week := fun st => .ok ((2025, 48), st)
    navigate_to_week := fun _ _ _ _ st => .ok st
    fill_timesheet := fun _ st => (FillSummary.fresh, st)
    click_save := fun st => (st == 0, st + 1) }

/-- Three target weeks with commit requested. -/
def multiWeekConfig : Config :=
  { auto_submit := true, no_overwrite := false, year := none, weeks := some [48, 49, 50] }

/-- The interaction trace of the failing C1 scenario: the displayed week
(48) needs no navigation, week 49 is navigated to and its save fails;
week 50 (index 3) never appears. -/
def failingSaveEvents : List Event :=
  [⟨0, .navigateTms⟩, ⟨0, .login⟩, ⟨0, .waitTable⟩, ⟨0, .detectBaseline⟩,
   ⟨1, .fill⟩, ⟨1, .save⟩,
   ⟨2, .detect⟩, ⟨2, .navigate⟩, ⟨2, .waitTable⟩, ⟨2, .fill⟩, ⟨2, .save⟩]

/-- The week list of a run is canonically indexed from 1. -/
theorem indexed_weeks_fst (ws : List Int) :
    ∀ i (hi : i < (ws.enum.map (fun q : ℕ × Int => (q.1 + 1, q.2))).length),
      ((ws.enum.map (fun q : ℕ × Int => (q.1 + 1, q.2))).get ⟨i, hi⟩).1 = 1 + i := by
  intro i hi
  simp only [List.get_eq_getElem, List.getElem_map, List.getElem_enum]
  omega

/-- C1: fail-fast across weeks. Whenever a run raises while processing the
week at 1-based index `k`, the raised message is
`Operation failed at Week {w}: {cause}` for that week, every recorded
page interaction belongs to a week index at most `k` (no interaction for
any later target week), and the result is the raised error, not a
summary. In the spec\'s concrete scenario — three target weeks, commit
requested, week 2\'s commit failing — the run raises at week index 2
(week 49) after attempting that save, and no interaction with week
index 3 occurs. -/
theorem run_fill_operation_fail_fast :
    (∀ (σ : Type) (ops : ClientOps σ) (cfg : Config) (rows : List TimesheetRow) (st : σ)
      (k : ℕ) (w : Int) (m : String) (evs : List Event),
      run_fill_operation ops cfg rows st = (.error (.atWeek k w m), evs) →
      (∃ cause, m = "Operation failed at Week " ++ toString w ++ ": " ++ cause) ∧
      (∀ ev ∈ evs, ev.weekIndex ≤ k)) ∧
    run_fill_operation failingSaveOps multiWeekConfig [] 0
      = (.error (.atWeek 2 49 "Operation failed at Week 49: Auto-submit failed for Week 49"),
         failingSaveEvents) ∧
    ((⟨2, .save⟩ : Event) ∈ failingSaveEvents) ∧
    (∀ ev ∈ failingSaveEvents, ev.weekIndex ≤ 2) ∧
    (∀ ev ∈ failingSaveEvents, ev.weekIndex ≠ 3) := by
  refine ⟨?_, by decide, by decide, by decide, by decide⟩
  intro σ ops cfg rows st k w m evs h
  unfold run_fill_operation at h
  cases hn : ops.navigate_to_tms st with
  | error e => rw [hn] at h; simp at h
  | ok st1 =>
    rw [hn] at h
    dsimp only at h
    cases hw : ops.wait_for_table (ops.wait_for_manual_login st1) with
    | mk b st3 =>
      rw [hw] at h
      cases b with
      | false => simp at h
      | true =>
        dsimp only at h
        cases hd : ops.detect_baseline_week st3 with
        | error e => rw [hd] at h; simp at h
        | ok p =>
          obtain ⟨⟨baseline_year, baseline_week⟩, st4⟩ := p
          rw [hd] at h
          dsimp only at h
          cases hpr : processWeeks ops cfg rows baseline_year baseline_week
              ((match cfg.weeks with
                | some ws => if ws.length > 0 then ws else [baseline_week]
                | none => [baseline_week]).enum.map (fun q : ℕ × Int => (q.1 + 1, q.2)))
              (FillSummary.fresh.calculate_daily_totals rows) st4 with
          | mk res evsw =>
            rw [hpr] at h
            dsimp only at h
            obtain ⟨h1, h2⟩ := Prod.mk.inj h
            subst h2
            obtain ⟨-, -, hcause, hevs⟩ :=
              processWeeks_error_char ops cfg rows baseline_year baseline_week
                _ 1 (FillSummary.fresh.calculate_daily_totals rows) st4 k w m evsw
                (indexed_weeks_fst _)
                (by rw [hpr, h1])
            refine ⟨hcause, ?_⟩
            intro ev hev
            rcases List.mem_append.mp hev with hev | hev
            · fin_cases hev <;> simp
            · exact hevs ev hev

/-- Witness for C1: the general conjunct applied to the concrete failing
scenario, showing the save attempt of the failing week is within bound. -/
theorem run_fill_operation_fail_fast_witness :
    (Event.mk 2 EventKind.save).weekIndex ≤ 2 :=
  (run_fill_operation_fail_fast.1 ℕ failingSaveOps multiWeekConfig [] 0 2 49
    "Operation failed at Week 49: Auto-submit failed for Week 49" failingSaveEvents
    (by decide)).2 (Event.mk 2 EventKind.save) (by decide)

/-- C2: the `daily_totals` of every successfully returned summary are, per
weekday, the sum of the non-null instructed values over the input rows —
for every page-operation behavior whatsoever (so independent of how many
cells were filled, skipped or failed), because they are computed once
from the rows before the week loop and never touched by the merging. -/
theorem run_fill_operation_daily_totals :
    ∀ (σ : Type) (ops : ClientOps σ) (cfg : Config) (rows : List TimesheetRow) (st : σ)
      (s : FillSummary) (evs : List Event),
      run_fill_operation ops cfg rows st = (.ok s, evs) →
      s.daily_totals = Weekday.all.map (fun d =>
        (d, (rows.map (fun r => (r.get_weekday_value d).getD 0)).sum)) := by
  intro σ ops cfg rows st s evs h
  unfold run_fill_operation at h
  cases hn : ops.navigate_to_tms st with
  | error e => rw [hn] at h; simp at h
  | ok st1 =>
    rw [hn] at h
    dsimp only at h
    cases hw : ops.wait_for_table (ops.wait_for_manual_login st1) with
    | mk b st3 =>
      rw [hw] at h
      cases b with
      | false => simp at h
      | true =>
        dsimp only at h
        cases hd : ops.detect_baseline_week st3 with
        | error e => rw [hd] at h; simp at h
        | ok p =>
          obtain ⟨⟨baseline_year, baseline_week⟩, st4⟩ := p
          rw [hd] at h
          dsimp only at h
          cases hpr : processWeeks ops cfg rows baseline_year baseline_week
              ((match cfg.weeks with
                | some ws => if ws.length > 0 then ws else [baseline_week]
                | none => [baseline_week]).enum.map (fun q : ℕ × Int => (q.1 + 1, q.2)))
              (FillSummary.fresh.calculate_daily_totals rows) st4 with
          | mk res evsw =>
            rw [hpr] at h
            dsimp only at h
            obtain ⟨h1, -⟩ := Prod.mk.inj h
            have hpres := processWeeks_ok_daily_totals ops cfg rows baseline_year baseline_week
              _ (FillSummary.fresh.calculate_daily_totals rows) st4 s evsw (by rw [hpr, h1])
            rw [hpres, calculate_daily_totals_eq]

/-- The summary the C2 witness run returns: fresh counters with the
all-zero daily totals of an empty row list. -/
def zeroTotalsSummary : FillSummary :=
  { FillSummary.fresh with daily_totals := Weekday.all.map (fun d => (d, (0 : ℚ))) }

/-- Test double where every operation succeeds and saves work. -/
def allOkOps : ClientOps ℕ :=
  { navigate_to_tms := fun st => .ok st
    wait_for_manual_login := fun st => st
    wait_for_table := fun st => (true, st)
    detect_baseline_week := fun st => .ok ((2025, 48), st)
    navigate_to_week := fun _ _ _ _ st => .ok st
    fill_timesheet := fun _ st => (FillSummary.fresh, st)
    click_save := fun st => (true, st) }

/-- Single-week run without commit. -/
def noSubmitConfig : Config :=
  { auto_submit := false, no_overwrite := false, year := none, weeks := none }

/-- Witness for C2: the theorem applied to a concrete successful
single-week run over no rows. -/
theorem run_fill_operation_daily_totals_witness :
    zeroTotalsSummary.daily_totals = Weekday.all.map (fun d =>
      (d, (([] : List TimesheetRow).map (fun r => (r.get_weekday_value d).getD 0)).sum)) :=
  run_fill_operation_daily_totals ℕ allOkOps noSubmitConfig [] 0 zeroTotalsSummary
    [⟨0, .navigateTms⟩, ⟨0, .login⟩, ⟨0, .waitTable⟩, ⟨0, .detectBaseline⟩, ⟨1, .fill⟩]
    (by decide)

end TMS
